import Mathlib

/-!
Shallow embedding of `src/datePicker/useDatePicker/useDatePicker.ts`
(the `useDatePicker` hook of the datepicker-hooks repository).

Dates are modelled at day precision as integers (a day number), which is how
the hook treats them: it only ever compares dates (`isBefore`, `isAfter`,
`<`, `>`), tests same-day equality, enumerates days of an interval, and adds
day-valued offsets.  `Duration` values (`minDateRange`, `maxDateRange`,
`fixRange`) are likewise modelled as a day count added by `dateAdd`
(date-fns `add`).

React `useState` slices become fields of `PickerState`; each event handler
becomes a pure function from the current state (the render closure) to the
next state, with `onDatesChange` invocations returned as an `Option` payload.
Collaborators imported from modules that are not part of the sources
(`useDatePicker.utils`, month-level date-fns arithmetic) are either passed in
as a `CalendarOps` record of functions or modelled from the spec, as marked.
-/

namespace DatePicker

/-- A calendar day, identified by its day number (day precision). -/
abbrev Date := Int

/-- A duration, modelled as a whole number of days. -/
abbrev Duration := Int

/-- date-fns `isAfter a b`: `a` is strictly after `b`. -/
def isAfter (a b : Date) : Bool := b < a

/-- date-fns `isBefore a b`: `a` is strictly before `b`. -/
def isBefore (a b : Date) : Bool := a < b

/-- date-fns `isSameDay` at day precision. -/
def isSameDay (a b : Date) : Bool := a = b

/-- date-fns `addDays`. -/
def addDays (d : Date) (n : Int) : Date := d + n

/-- date-fns `addWeeks`. -/
def addWeeks (d : Date) (n : Int) : Date := d + 7 * n

/-- date-fns `add` with a duration (modelled as a day count). -/
def dateAdd (d : Date) (dur : Duration) : Date := d + dur

/-- The TS `Interval` record `{ start, end }` used for potential ranges. -/
structure Interval where
  start : Date
  «end» : Date
deriving DecidableEq, Repr

/-- date-fns `isWithinInterval` (inclusive on both bounds). -/
def isWithinInterval (d : Date) (i : Interval) : Bool :=
  i.start ≤ d ∧ d ≤ i.«end»

/-- date-fns `eachDayOfInterval`: every day from `start` to `end` inclusive. -/
def eachDayOfInterval (i : Interval) : List Date :=
  (List.range (i.«end» - i.start + 1).toNat).map (fun k => i.start + (k : Int))

/-- The `ActiveSelection` enum of the hook: which endpoint the next
interaction targets (`none` = idle, both ends fixed). -/
inductive ActiveSelection where
  | start
  | «end»
  | none
deriving DecidableEq, Repr

/-- `TDateRange`: `{ start?: Date, end?: Date }`. -/
structure TDateRange where
  start : Option Date
  «end» : Option Date
deriving DecidableEq, Repr

/-- A validation error `{ reason }`; the reason is one of the fixed string tags. -/
structure ValidationError where
  reason : String
deriving DecidableEq, Repr

/-- `TPotentialRange`: the hover preview `{ range, error }`. -/
structure TPotentialRange where
  range : Interval
  error : Option ValidationError
deriving DecidableEq, Repr

/-- `THoveredDate`: `{ date, error }`. -/
structure THoveredDate where
  date : Date
  error : Option ValidationError
deriving DecidableEq, Repr

/-- `TCurrentInputValues`: the textual mirror of the range. -/
structure TCurrentInputValues where
  start : String
  «end» : String
deriving DecidableEq, Repr

/-- `OnDatesChangeProps`: the payload of the `onDatesChange` callback
(`none` models `null`). -/
structure OnDatesChangeProps where
  startDate : Option Date
  endDate : Option Date
deriving DecidableEq, Repr

/-- The `unavailableDates` option: an explicit list of dates or a predicate. -/
inductive UnavailableDates where
  | list : List Date → UnavailableDates
  | pred : (Date → Bool) → UnavailableDates

/-- The immutable configuration of one picker instance (the props the
validation logic reads).  `minDate` defaults to a non-null date in the
source but may be passed as `null`, hence `Option`. -/
structure Config where
  minDate : Option Date
  maxDate : Option Date
  minDateRange : Option Duration
  maxDateRange : Option Duration
  fixRange : Option Duration
  unavailableDates : UnavailableDates

/-- One entry of `activeMonths`: a month descriptor (its anchor date,
`month.month.date` in the source) plus the padding flag. -/
structure PickerMonth where
  monthDate : Date
  isPadding : Bool
deriving DecidableEq, Repr

/-- The `useState` slices of the hook that the selection logic touches. -/
structure PickerState where
  activeMonths : List PickerMonth
  hoveredDate : Option THoveredDate
  focusedDate : Option Date
  activeSelection : ActiveSelection
  dateRange : TDateRange
  currentInputValues : TCurrentInputValues
  potentialRange : Option TPotentialRange
deriving DecidableEq, Repr

/-- The `isDisabled` helper of the hook: predicate form applies the
function, list form tests `some((d) => isSameDay(date, d))`. -/
def isDisabled (u : UnavailableDates) (date : Date) : Bool :=
  match u with
  | .pred f => f date
  | .list l => l.any (fun d => isSameDay date d)

/-- The validation-error chain of `calculatePotentialRange` (source lines
330-350), applied once a potential interval has been formed. -/
def potentialRangeError (cfg : Config) (range : Interval) :
    Option ValidationError :=
  let validationError : String := ""
  -- violates minimum range constraint
  let validationError :=
    match cfg.minDateRange with
    | some md =>
      if ¬ (isAfter range.«end» (dateAdd range.start md) = true) then
        "LESS_THAN_MIN_RANGE"
      else validationError
    | Option.none => validationError
  -- violates maximum range constraint
  let validationError :=
    match cfg.maxDateRange with
    | some md =>
      if validationError = "" ∧ isAfter range.«end» (dateAdd range.start md) = true then
        "GREATER_THAN_MAX_RANGE"
      else validationError
    | Option.none => validationError
  -- contains blocked dates (the source condition, verbatim:
  -- `!validationError && !eachDayOfInterval(range).some((d) => isDisabled(d))`)
  let validationError :=
    if validationError = "" ∧
        ¬ ((eachDayOfInterval range).any (fun d => isDisabled cfg.unavailableDates d) = true) then
      "CONTAINS_BLOCKED_DATE"
    else validationError
  if validationError ≠ "" then some ⟨validationError⟩ else Option.none

/-- `calculatePotentialRange` (source lines 300-351), as the value stored
into the `potentialRange` state slice: `none` models
`setPotentialRange(undefined)`. -/
def calculatePotentialRange (cfg : Config) (dateRange : TDateRange)
    (activeSelection : ActiveSelection) (date : Option Date) :
    Option TPotentialRange :=
  match date with
  | Option.none => Option.none
  | some date =>
    let startDate := dateRange.start
    let endDate := dateRange.«end»
    if (startDate = Option.none ∧ endDate = Option.none) ∨
        activeSelection = ActiveSelection.none then
      Option.none
    else
      -- if (activeSelection === end && startDate && startDate < date)
      let range : Option Interval :=
        match activeSelection, startDate with
        | ActiveSelection.«end», some s =>
          if s < date then some ⟨s, date⟩ else Option.none
        | _, _ => Option.none
      -- if (activeSelection === start && endDate && endDate > date)
      let range : Option Interval :=
        match activeSelection, endDate with
        | ActiveSelection.start, some e =>
          if e > date then some ⟨date, e⟩ else range
        | _, _ => range
      match range with
      | Option.none => Option.none
      | some range =>
        some { range := range, error := potentialRangeError cfg range }

/-- The effect pair at source lines 169-171: on a hovered-date change the
hook recomputes `potentialRange` from the current state. -/
def recomputePotentialRange (cfg : Config) (st : PickerState) : PickerState :=
  { st with
    potentialRange :=
      calculatePotentialRange cfg st.dateRange st.activeSelection
        (st.hoveredDate.map (fun h => h.date)) }

/-- `onDateHover` (source lines 353-387), as the `THoveredDate` value stored
into the `hoveredDate` slice. -/
def onDateHover (cfg : Config) (dateRange : TDateRange) (date : Date) :
    THoveredDate :=
  let startDate := dateRange.start
  let endDate := dateRange.«end»
  let validationError : String := ""
  -- blocked date
  let validationError :=
    if isDisabled cfg.unavailableDates date then "BLOCKED_DATE" else validationError
  -- less than minimum date (overwrites unconditionally, as in the source)
  let validationError :=
    match cfg.minDate with
    | some m =>
      if isBefore date (addDays m (-1)) then "LESS_THAN_MIN_DATE" else validationError
    | Option.none => validationError
  -- greater than max date (guarded by !validationError)
  let validationError :=
    match cfg.maxDate with
    | some m =>
      if validationError = "" ∧ isAfter date m = true then "GREATER_THAN_MAX_DATE"
      else validationError
    | Option.none => validationError
  -- fixed range (guarded by !validationError)
  let validationError :=
    match cfg.fixRange with
    | some fr =>
      let hasError :=
        (match startDate with
         | some s => isAfter date (dateAdd s fr)
         | Option.none => false) ||
        (match endDate with
         | some e => isAfter date (dateAdd e fr)
         | Option.none => false)
      if validationError = "" ∧ hasError = true then "VIOLATES_FIX_RANGE"
      else validationError
    | Option.none => validationError
  { date := date
    error := if validationError ≠ "" then some ⟨validationError⟩ else Option.none }

/-- Modelled from the spec: the external collaborators the selection commit
path imports from modules that are not part of the sources —
`getPickerMonths` (from `useDatePicker.utils`, §4.5 `buildWindow`: builds the
visible month window from the start/end anchors; `numberOfMonths`,
`firstDayOfWeek` and `padding` are fixed per instance and absorbed into the
function), month-level arithmetic `isSameMonth` / `addMonths` and the date
formatter `format` (date-fns, §6).  They are passed in as a record of
functions. -/
structure CalendarOps where
  getPickerMonths : Option Date → Option Date → List PickerMonth
  isSameMonth : Date → Date → Bool
  addMonths : Date → Int → Date
  formatDate : Date → String

/-- `getInputValuesFromRange` (source lines 173-178). -/
def getInputValuesFromRange (ops : CalendarOps) (range : TDateRange) :
    TCurrentInputValues :=
  { start := match range.start with
             | some d => ops.formatDate d
             | Option.none => ""
    «end» := match range.«end» with
             | some d => ops.formatDate d
             | Option.none => "" }

/-- Modelled from the spec: `validateDates` is imported from
`useDatePicker.utils`, which is not part of the sources.  Per §4.1: a range
with no endpoints, or a single endpoint with no opposing endpoint yet, is
always valid for commit purposes; a two-sided range must have
`start ≤ end` (§8, scenario of day 5 / day 3), both ends inside the min/max
date bounds (rule 1 with its one-day-exclusive lower boundary, rule 2), a
span strictly greater than `minDateRange` and not strictly greater than
`maxDateRange` (rule 5), and no blocked day inside the inclusive
interval (rule 5). -/
def validateDates (cfg : Config) (range : TDateRange) : Bool :=
  match range.start, range.«end» with
  | some s, some e =>
    decide (s ≤ e) &&
    (match cfg.minDate with
     | some m => !(isBefore s (addDays m (-1)))
     | Option.none => true) &&
    (match cfg.maxDate with
     | some m => !(isAfter e m)
     | Option.none => true) &&
    (match cfg.minDateRange with
     | some md => isAfter e (dateAdd s md)
     | Option.none => true) &&
    (match cfg.maxDateRange with
     | some md => !(isAfter e (dateAdd s md))
     | Option.none => true) &&
    !((eachDayOfInterval ⟨s, e⟩).any (fun d => isDisabled cfg.unavailableDates d))
  | _, _ => true

/-- `onDateSelect` (source lines 248-298), as a pure transition: from the
render-closure state `st` and the candidate `range`, produce the next state
together with the `onDatesChange` payload (`none` when the callback is not
invoked).  `initialVisibleMonth` is the prop of the same name. -/
def onDateSelect (cfg : Config) (ops : CalendarOps)
    (initialVisibleMonth : Option Date) (st : PickerState)
    (range : TDateRange) (sync : Bool) :
    PickerState × Option OnDatesChangeProps :=
  let isValid := validateDates cfg range
  if isValid then
    let st1 := { st with dateRange := range }
    let callback : OnDatesChangeProps :=
      { startDate := range.start, endDate := range.«end» }
    -- check if selected start date is within view
    let isStartDateVisible :=
      match range.start with
      | some sd => st.activeMonths.any (fun month => ops.isSameMonth month.monthDate sd)
      | Option.none => false
    -- check if selected end date is within view
    let isEndDateVisible :=
      match range.«end» with
      | some ed => st.activeMonths.any (fun month => ops.isSameMonth month.monthDate ed)
      | Option.none => false
    -- only recompute active months when the selected date is not in view
    let st2 :=
      if (¬ isStartDateVisible = true ∧ st.activeSelection = ActiveSelection.start) ∨
          (¬ isEndDateVisible = true ∧ st.activeSelection = ActiveSelection.«end») then
        { st1 with
          activeMonths := ops.getPickerMonths (range.start.or initialVisibleMonth) range.«end» }
      else st1
    let st3 :=
      if sync then { st2 with currentInputValues := getInputValuesFromRange ops range }
      else st2
    let st4 :=
      if st.activeSelection = ActiveSelection.«end» ∧ range.start.isSome = true then
        { st3 with activeSelection := ActiveSelection.none }
      else
        { st3 with activeSelection := ActiveSelection.«end» }
    (st4, some callback)
  else
    (st, Option.none)

/-- `onDateClick` from `getDateProps` (source lines 404-413).  In the
`ActiveSelection.none` branch the source first queues
`setActiveSelection(start)` and then calls `onDateSelect`; the call still
reads the render-closure selection (`none`), and on a successful commit the
unconditional `setActiveSelection` inside `onDateSelect` overwrites the
queued value, so the queued `start` survives only when the commit is
declined. -/
def onDateClick (cfg : Config) (ops : CalendarOps)
    (initialVisibleMonth : Option Date) (st : PickerState) (date : Date) :
    PickerState × Option OnDatesChangeProps :=
  match st.activeSelection with
  | ActiveSelection.start =>
    onDateSelect cfg ops initialVisibleMonth st
      { st.dateRange with start := some date } true
  | ActiveSelection.«end» =>
    onDateSelect cfg ops initialVisibleMonth st
      { st.dateRange with «end» := some date } true
  | ActiveSelection.none =>
    let result := onDateSelect cfg ops initialVisibleMonth st
      { start := some date, «end» := Option.none } true
    match result.2 with
    | some _ => result
    | Option.none => ({ result.1 with activeSelection := ActiveSelection.start }, result.2)

/-- The `setFocusedDate` updater of `handleKeyDown` (source lines 202-238),
abstracting the lodash throttle wrapper: from the key and the previous
focused date, the new focused date.  The `switch` falls through on any
non-navigation key, returning `undefined` (here `none`). -/
def handleKeyDown (ops : CalendarOps) (key : String)
    (activeMonths : List PickerMonth) (date : Option Date) : Option Date :=
  match date with
  | Option.none =>
    ((activeMonths.filter (fun m => !m.isPadding)).head?).map (fun m => m.monthDate)
  | some date =>
    if key = "ArrowRight" then some (addDays date 1)
    else if key = "ArrowLeft" then some (addDays date (-1))
    else if key = "ArrowUp" then some (addWeeks date (-1))
    else if key = "ArrowDown" then some (addWeeks date 1)
    else if key = "PageUp" then some (ops.addMonths date (-1))
    else if key = "PageDown" then some (ops.addMonths date 1)
    else Option.none

set_option linter.unusedVariables false in
/-- The initial value of every `useState` slice of `useDatePicker`
(source lines 95-104).  The caller-supplied `startDate` / `endDate` props
are received (with `null` defaults) but never read by any initializer:
`dateRange` starts as `{}` and `activeSelection` as `ActiveSelection.start`
unconditionally. -/
def initialPickerState (startDate endDate : Option Date) : PickerState :=
  { activeMonths := []
    hoveredDate := Option.none
    focusedDate := Option.none
    activeSelection := ActiveSelection.start
    dateRange := { start := Option.none, «end» := Option.none }
    currentInputValues := { start := "", «end» := "" }
    potentialRange := Option.none }

/-! ### Text-Sync Adapter model

The format/parse collaborators of the Text-Sync Adapter (§4.6) are date-fns
`format` / `parse`, external to the sources, so they are modelled from the
spec over a calendar-date record, for the default pattern `dd/MM/yyyy`. -/

/-- A calendar date as rendered by the `dd/MM/yyyy` input format. -/
structure Ymd where
  year : Nat
  month : Nat
  day : Nat
deriving DecidableEq, Repr

/-- Modelled from the spec: the "validity check of a parsed date" (§6) for a
day-precision calendar date, as far as the `dd/MM/yyyy` pattern constrains
it: month 1-12, day 1-31, year of at most four digits. -/
def isValidYmd (d : Ymd) : Bool :=
  decide (1 ≤ d.month ∧ d.month ≤ 12 ∧ 1 ≤ d.day ∧ d.day ≤ 31 ∧ d.year ≤ 9999)

/-- The decimal digit character for `n < 10`. -/
def digitChar (n : Nat) : Char := Char.ofNat (48 + n)

/-- The value of a decimal digit character. -/
def charVal (c : Char) : Nat := c.toNat - 48

/-- Whether a character is a decimal digit. -/
def isDigitChar (c : Char) : Bool := decide (48 ≤ c.toNat ∧ c.toNat ≤ 57)

/-- A two-digit zero-padded rendering (`dd`, `MM`). -/
def pad2 (n : Nat) : List Char := [digitChar (n / 10), digitChar (n % 10)]

/-- A four-digit zero-padded rendering (`yyyy`). -/
def pad4 (n : Nat) : List Char :=
  [digitChar (n / 1000), digitChar (n / 100 % 10), digitChar (n / 10 % 10),
   digitChar (n % 10)]

/-- Modelled from the spec: date-fns `format` against the default pattern
`dd/MM/yyyy` (§6), over the calendar-date model. -/
def formatYmd (d : Ymd) : List Char :=
  pad2 d.day ++ '/' :: pad2 d.month ++ '/' :: pad4 d.year

/-- Modelled from the spec: date-fns `parse` against `dd/MM/yyyy` composed
with the `isValid` guard of `getInputProps.onChange` (source lines 457-459):
text that is not a ten-character `dd/MM/yyyy` rendering of a valid date
parses to nothing. -/
def parseYmd (s : List Char) : Option Ymd :=
  match s with
  | [d1, d2, s1, m1, m2, s2, y1, y2, y3, y4] =>
    if isDigitChar d1 = true ∧ isDigitChar d2 = true ∧ s1 = '/' ∧
        isDigitChar m1 = true ∧ isDigitChar m2 = true ∧ s2 = '/' ∧
        isDigitChar y1 = true ∧ isDigitChar y2 = true ∧
        isDigitChar y3 = true ∧ isDigitChar y4 = true then
      let d : Ymd :=
        { year := charVal y1 * 1000 + charVal y2 * 100 + charVal y3 * 10 + charVal y4
          month := charVal m1 * 10 + charVal m2
          day := charVal d1 * 10 + charVal d2 }
      if isValidYmd d then some d else Option.none
    else Option.none
  | _ => Option.none

/-- A date range over the calendar-date model, as the Text-Sync Adapter
sees it. -/
structure YmdRange where
  start : Option Ymd
  «end» : Option Ymd
deriving DecidableEq, Repr

/-- `rangeToText` (§4.6): the format direction of the Text-Sync Adapter —
the shape of `getInputValuesFromRange` (source lines 173-178) over the
calendar-date model: each present endpoint formatted, empty text when
absent. -/
def rangeToText (r : YmdRange) : List Char × List Char :=
  (match r.start with
   | some d => formatYmd d
   | Option.none => [],
   match r.«end» with
   | some d => formatYmd d
   | Option.none => [])

/-- `textToRange` (§4.6): the parse direction of the Text-Sync Adapter —
the shape of `getInputProps.onChange` (source lines 451-466): each field is
parsed independently and an unparseable field (including empty text) yields
no endpoint. -/
def textToRange (t : List Char × List Char) : YmdRange :=
  { start := parseYmd t.1, «end» := parseYmd t.2 }

/-- Whether every present endpoint of a range is a valid, in-format date. -/
def rangeInFormat (r : YmdRange) : Bool :=
  (match r.start with
   | some d => isValidYmd d
   | Option.none => true) &&
  (match r.«end» with
   | some d => isValidYmd d
   | Option.none => true)

/-! ### Spec-side classifiers for refinement statements -/

/-- Rule 1 of §4.1: the hovered date is earlier than the one-day-exclusive
lower boundary of `minDate`. -/
def minDateViolation (cfg : Config) (d : Date) : Bool :=
  match cfg.minDate with
  | some m => isBefore d (addDays m (-1))
  | Option.none => false

/-- Rule 2 of §4.1: the hovered date is later than `maxDate`. -/
def maxDateViolation (cfg : Config) (d : Date) : Bool :=
  match cfg.maxDate with
  | some m => isAfter d m
  | Option.none => false

/-- Rule 4 of §4.1 as the code implements it: some committed endpoint exists
and the hovered date is strictly after that endpoint plus `fixRange`. -/
def fixRangeViolation (cfg : Config) (dr : TDateRange) (d : Date) : Bool :=
  match cfg.fixRange with
  | some fr =>
    (match dr.start with
     | some s => isAfter d (dateAdd s fr)
     | Option.none => false) ||
    (match dr.«end» with
     | some e => isAfter d (dateAdd e fr)
     | Option.none => false)
  | Option.none => false

/-- The standalone hover classification stated spec-style (first match
wins), with the precedence the code actually implements:
`LESS_THAN_MIN_DATE`, then `BLOCKED_DATE`, then `GREATER_THAN_MAX_DATE`,
then `VIOLATES_FIX_RANGE`. -/
def hoverErrorSpec (cfg : Config) (dr : TDateRange) (d : Date) :
    Option ValidationError :=
  if minDateViolation cfg d then some ⟨"LESS_THAN_MIN_DATE"⟩
  else if isDisabled cfg.unavailableDates d then some ⟨"BLOCKED_DATE"⟩
  else if maxDateViolation cfg d then some ⟨"GREATER_THAN_MAX_DATE"⟩
  else if fixRangeViolation cfg dr d then some ⟨"VIOLATES_FIX_RANGE"⟩
  else Option.none

/-- Helper: `onDateHover` computes exactly the first-match classification
`hoverErrorSpec`. -/
theorem onDateHover_error_eq (cfg : Config) (dr : TDateRange) (d : Date) :
    (onDateHover cfg dr d).error = hoverErrorSpec cfg dr d := by
  unfold onDateHover hoverErrorSpec minDateViolation maxDateViolation fixRangeViolation
  cases hm : cfg.minDate <;> cases hx : cfg.maxDate <;> cases hf : cfg.fixRange <;>
    cases hb : isDisabled cfg.unavailableDates d <;>
      simp only [] <;> split_ifs <;> simp_all

/-! ### Claim theorems -/

/-- C1: the blocked-interval check of `calculatePotentialRange` is inverted.
Evaluated at a failing input: with no blocked dates at all, committed start
0, active selection on the end, hovering day 2 (passing the absent min/max
range checks) yields `error = CONTAINS_BLOCKED_DATE` even though no day of
the inclusive interval [0, 2] is blocked; with day 1 blocked, the same hover
yields `error = null`.  The claim (and the spec rule it quotes) requires
exactly the opposite. -/
theorem contains_blocked_date_inverted :
    (calculatePotentialRange
        ⟨Option.none, Option.none, Option.none, Option.none, Option.none,
          UnavailableDates.list []⟩
        ⟨some 0, Option.none⟩ ActiveSelection.«end» (some 2) =
      some ⟨⟨0, 2⟩, some ⟨"CONTAINS_BLOCKED_DATE"⟩⟩) ∧
    ((eachDayOfInterval ⟨0, 2⟩).all
        (fun d => !(isDisabled (UnavailableDates.list []) d)) = true) ∧
    (calculatePotentialRange
        ⟨Option.none, Option.none, Option.none, Option.none, Option.none,
          UnavailableDates.list [1]⟩
        ⟨some 0, Option.none⟩ ActiveSelection.«end» (some 2) =
      some ⟨⟨0, 2⟩, Option.none⟩) ∧
    (isDisabled (UnavailableDates.list [1]) 1 = true) := by
  refine ⟨by decide, by decide, by decide, by decide⟩

/-- C3 counterexample: with caller-supplied initial `startDate = day 5` and
no `endDate`, the claim requires the committed range to be pre-seeded with
start 5 and the initial selection to be picking-end; the hook initializes
`dateRange` to `{}` and `activeSelection` to `start`. -/
theorem initial_state_counterexample :
    ¬ ((initialPickerState (some 5) Option.none).activeSelection =
          ActiveSelection.«end» ∧
       (initialPickerState (some 5) Option.none).dateRange.start = some 5) := by
  decide

/-- C3 amended: for every pair of caller-supplied initial startDate/endDate
values, the committed DateRange is initialized empty (the supplied values
are ignored) and the initial ActiveSelection is always picking-start. -/
theorem initial_state_empty (startDate endDate : Option Date) :
    (initialPickerState startDate endDate).dateRange =
      { start := Option.none, «end» := Option.none } ∧
    (initialPickerState startDate endDate).activeSelection =
      ActiveSelection.start :=
  ⟨rfl, rfl⟩

/-- C4 counterexample: with `maxDate = 10` and day 20 blocked, hovering day
20 — a date that both matches the blocked-date predicate and is later than
`maxDate` — is classified `BLOCKED_DATE`, not `GREATER_THAN_MAX_DATE` as
the claim requires. -/
theorem hover_precedence_counterexample :
    (isDisabled (UnavailableDates.list [20]) 20 = true) ∧
    (isAfter 20 10 = true) ∧
    ((onDateHover
        ⟨Option.none, some 10, Option.none, Option.none, Option.none,
          UnavailableDates.list [20]⟩
        ⟨Option.none, Option.none⟩ 20).error ≠ some ⟨"GREATER_THAN_MAX_DATE"⟩) ∧
    ((onDateHover
        ⟨Option.none, some 10, Option.none, Option.none, Option.none,
          UnavailableDates.list [20]⟩
        ⟨Option.none, Option.none⟩ 20).error = some ⟨"BLOCKED_DATE"⟩) := by
  refine ⟨by decide, by decide, by decide, by decide⟩

/-- C4 amended: for every hovered date, the standalone hover error is
determined first-match-wins in the fixed order LESS_THAN_MIN_DATE (rule 1),
BLOCKED_DATE (rule 2), GREATER_THAN_MAX_DATE (rule 3), VIOLATES_FIX_RANGE
(rule 4); in particular, a hovered date that both matches the blocked-date
predicate and is later than maxDate is classified BLOCKED_DATE. -/
theorem hover_error_first_match (cfg : Config) (dr : TDateRange) (d : Date) :
    (onDateHover cfg dr d).error = hoverErrorSpec cfg dr d :=
  onDateHover_error_eq cfg dr d

/-- C6 counterexample: with `fixRange = 5` days and committed start day 100,
hovering day 10 — more than `fixRange` before the committed endpoint, with
no earlier rule matching — yields no error, although the claim requires
`VIOLATES_FIX_RANGE` for dates beyond the endpoint on either side. -/
theorem fix_range_before_side_counterexample :
    ((100 : Date) - 10 > 5) ∧
    ((onDateHover
        ⟨Option.none, Option.none, Option.none, Option.none, some 5,
          UnavailableDates.list []⟩
        ⟨some 100, Option.none⟩ 10).error = Option.none) := by
  refine ⟨by decide, by decide⟩

/-- C6 amended: when a fixRange duration is configured, and no earlier hover
rule (min date, blocked, max date) matched, hover classification rejects a
candidate with VIOLATES_FIX_RANGE exactly when the candidate lies strictly
after committedEndpoint + fixRange for some committed endpoint; candidates
before an endpoint are never rejected by this rule. -/
theorem hover_fix_range_after_side_only (cfg : Config) (dr : TDateRange)
    (d : Date) (fr : Duration) (hfr : cfg.fixRange = some fr)
    (hmin : minDateViolation cfg d = false)
    (hblock : isDisabled cfg.unavailableDates d = false)
    (hmax : maxDateViolation cfg d = false) :
    (onDateHover cfg dr d).error = some ⟨"VIOLATES_FIX_RANGE"⟩ ↔
      ((∃ s, dr.start = some s ∧ isAfter d (dateAdd s fr) = true) ∨
       (∃ e, dr.«end» = some e ∧ isAfter d (dateAdd e fr) = true)) := by
  rw [onDateHover_error_eq]
  unfold hoverErrorSpec fixRangeViolation
  rw [hmin, hblock, hmax, hfr]
  simp only [Bool.false_eq_true, if_false]
  cases hs : dr.start <;> cases he : dr.«end» <;>
    split_ifs with h <;> simp_all

/-- Witness for C6 amended: `fixRange = 5`, committed start 0, hovering day
10 (strictly after 0 + 5) is rejected with `VIOLATES_FIX_RANGE`. -/
theorem hover_fix_range_after_side_only_witness :
    (onDateHover
        ⟨Option.none, Option.none, Option.none, Option.none, some 5,
          UnavailableDates.list []⟩
        ⟨some 0, Option.none⟩ 10).error = some ⟨"VIOLATES_FIX_RANGE"⟩ := by
  exact (hover_fix_range_after_side_only
      ⟨Option.none, Option.none, Option.none, Option.none, some 5,
        UnavailableDates.list []⟩
      ⟨some 0, Option.none⟩ 10 5 rfl (by decide) (by decide) (by decide)).mpr
    (Or.inl ⟨0, rfl, by decide⟩)

/-- C5: on a hover-date change, a potential range is formed exactly when a
committed endpoint exists on the side opposite the active selection and the
hovered date lies strictly beyond it in the direction of a non-degenerate
interval; with no hovered date, and in every other case (no committed
endpoint, idle selection, hover not beyond the relevant endpoint), the
potential range is cleared to `undefined`, not error-flagged. -/
theorem potential_range_formation (cfg : Config) (dr : TDateRange)
    (sel : ActiveSelection) (d : Date) :
    (calculatePotentialRange cfg dr sel Option.none = Option.none) ∧
    ((calculatePotentialRange cfg dr sel (some d)).isSome = true ↔
      ((sel = ActiveSelection.«end» ∧ ∃ s, dr.start = some s ∧ s < d) ∨
       (sel = ActiveSelection.start ∧ ∃ e, dr.«end» = some e ∧ d < e))) := by
  refine ⟨rfl, ?_⟩
  unfold calculatePotentialRange
  cases sel <;> cases hs : dr.start <;> cases he : dr.«end» <;>
    simp only [hs, he] <;> split_ifs <;> simp_all

/-- C8: recomputing the potential range is idempotent (and, being a pure
function of the hovered date, committed range, active selection and
constraints, deterministic): recomputing from an already-recomputed state
changes nothing, because the recomputation never reads the stored
`potentialRange`. -/
theorem potential_range_recompute_idempotent (cfg : Config) (st : PickerState) :
    recomputePotentialRange cfg (recomputePotentialRange cfg st) =
      recomputePotentialRange cfg st := rfl

/-- C2: a date-select attempt whose validation fails is silently declined —
the whole state (committed range, active selection, visible months, input
text) is returned unchanged and no callback is emitted — and `onDatesChange`
is emitted exactly on successful commits, with `null` (`none`) for each
absent endpoint.  (The embedding is a total function, so no exception is
possible.) -/
theorem date_select_silent_decline (cfg : Config) (ops : CalendarOps)
    (ivm : Option Date) (st : PickerState) (range : TDateRange) (sync : Bool) :
    (validateDates cfg range = false →
      onDateSelect cfg ops ivm st range sync = (st, Option.none)) ∧
    ((onDateSelect cfg ops ivm st range sync).2 =
      if validateDates cfg range = true
      then some { startDate := range.start, endDate := range.«end» }
      else Option.none) := by
  constructor
  · intro h
    unfold onDateSelect
    simp [h]
  · unfold onDateSelect
    cases h : validateDates cfg range <;> simp [h]

/-- Witness for C2: with no constraints, the range `start = 5, end = 3`
fails validation (start after end) and the select attempt leaves the
initial state untouched, emitting nothing. -/
theorem date_select_silent_decline_witness :
    validateDates
        ⟨Option.none, Option.none, Option.none, Option.none, Option.none,
          UnavailableDates.list []⟩ ⟨some 5, some 3⟩ = false ∧
    onDateSelect
        ⟨Option.none, Option.none, Option.none, Option.none, Option.none,
          UnavailableDates.list []⟩
        ⟨fun _ _ => [], fun _ _ => false, fun d _ => d, fun _ => ""⟩
        Option.none (initialPickerState Option.none Option.none)
        ⟨some 5, some 3⟩ true =
      (initialPickerState Option.none Option.none, Option.none) := by
  refine ⟨by decide, ?_⟩
  exact (date_select_silent_decline _ _ _ _ _ _).1 (by decide)

/-- C7: clicking a date while the selection is idle
(`ActiveSelection.none`) starts a fresh range at the clicked date — the
committed range becomes `{ start := clicked }`, discarding any previous
end — and the selection transitions to picking-end.  (Under the
spec-modelled `validateDates`, a single-endpoint range is always valid, so
the commit always succeeds.) -/
theorem idle_click_starts_fresh_range (cfg : Config) (ops : CalendarOps)
    (ivm : Option Date) (st : PickerState) (d : Date)
    (h : st.activeSelection = ActiveSelection.none) :
    (onDateClick cfg ops ivm st d).1.dateRange =
      { start := some d, «end» := Option.none } ∧
    (onDateClick cfg ops ivm st d).1.activeSelection = ActiveSelection.«end» := by
  unfold onDateClick onDateSelect
  rw [h]
  have hv : validateDates cfg { start := some d, «end» := Option.none } = true := rfl
  simp [hv, h]

/-- Witness for C7: clicking day 7 from an idle initial-shaped state commits
`{ start := 7 }` and enters picking-end. -/
theorem idle_click_starts_fresh_range_witness :
    (onDateClick
        ⟨Option.none, Option.none, Option.none, Option.none, Option.none,
          UnavailableDates.list []⟩
        ⟨fun _ _ => [], fun _ _ => false, fun d _ => d, fun _ => ""⟩
        Option.none
        { initialPickerState Option.none Option.none with
            activeSelection := ActiveSelection.none } 7).1.dateRange =
      { start := some 7, «end» := Option.none } ∧
    (onDateClick
        ⟨Option.none, Option.none, Option.none, Option.none, Option.none,
          UnavailableDates.list []⟩
        ⟨fun _ _ => [], fun _ _ => false, fun d _ => d, fun _ => ""⟩
        Option.none
        { initialPickerState Option.none Option.none with
            activeSelection := ActiveSelection.none } 7).1.activeSelection =
      ActiveSelection.«end» := by
  exact idle_click_starts_fresh_range _ _ _ _ 7 rfl

/-- C10: a key-down whose key is none of the six navigation keys, arriving
while a date is keyboard-focused, sets the focused date to `undefined`:
the `switch` falls through and the `setFocusedDate` updater returns
nothing. -/
theorem other_key_clears_focus (ops : CalendarOps) (key : String)
    (months : List PickerMonth) (d : Date)
    (h : key ∉ (["ArrowRight", "ArrowLeft", "ArrowUp", "ArrowDown",
        "PageUp", "PageDown"] : List String)) :
    handleKeyDown ops key months (some d) = Option.none := by
  simp only [List.mem_cons, List.not_mem_nil, or_false] at h
  push_neg at h
  obtain ⟨h1, h2, h3, h4, h5, h6⟩ := h
  simp [handleKeyDown, h1, h2, h3, h4, h5, h6]

/-- Witness for C10: pressing Enter while day 0 is focused clears the
focused date. -/
theorem other_key_clears_focus_witness :
    handleKeyDown ⟨fun _ _ => [], fun _ _ => false, fun d _ => d, fun _ => ""⟩
      "Enter" [] (some 0) = Option.none := by
  exact other_key_clears_focus _ "Enter" [] 0 (by decide)

/-- Helper: the digit character of `k < 10` has character value `k`. -/
theorem charVal_digitChar : ∀ k, k < 10 → charVal (digitChar k) = k := by decide

/-- Helper: the digit character of `k < 10` is a digit. -/
theorem isDigitChar_digitChar : ∀ k, k < 10 → isDigitChar (digitChar k) = true := by
  decide

/-- Helper: formatting a valid calendar date under `dd/MM/yyyy` and parsing
the text back yields the same date. -/
theorem parseYmd_formatYmd (d : Ymd) (h : isValidYmd d = true) :
    parseYmd (formatYmd d) = some d := by
  obtain ⟨y, m, dd⟩ := d
  have hb := h
  simp only [isValidYmd, decide_eq_true_eq] at hb
  have e1 : dd / 10 < 10 := by omega
  have e2 : dd % 10 < 10 := by omega
  have e3 : m / 10 < 10 := by omega
  have e4 : m % 10 < 10 := by omega
  have e5 : y / 1000 < 10 := by omega
  have e6 : y / 100 % 10 < 10 := by omega
  have e7 : y / 10 % 10 < 10 := by omega
  have e8 : y % 10 < 10 := by omega
  show parseYmd [digitChar (dd / 10), digitChar (dd % 10), '/', digitChar (m / 10),
      digitChar (m % 10), '/', digitChar (y / 1000), digitChar (y / 100 % 10),
      digitChar (y / 10 % 10), digitChar (y % 10)] = some ⟨y, m, dd⟩
  simp only [parseYmd, isDigitChar_digitChar _ e1, isDigitChar_digitChar _ e2,
    isDigitChar_digitChar _ e3, isDigitChar_digitChar _ e4,
    isDigitChar_digitChar _ e5, isDigitChar_digitChar _ e6,
    isDigitChar_digitChar _ e7, isDigitChar_digitChar _ e8,
    charVal_digitChar _ e1, charVal_digitChar _ e2, charVal_digitChar _ e3,
    charVal_digitChar _ e4, charVal_digitChar _ e5, charVal_digitChar _ e6,
    charVal_digitChar _ e7, charVal_digitChar _ e8,
    and_true, true_and, and_self, if_true, ite_true]
  have ed : dd / 10 * 10 + dd % 10 = dd := by omega
  have em : m / 10 * 10 + m % 10 = m := by omega
  have ey : y / 1000 * 1000 + y / 100 % 10 * 100 + y / 10 % 10 * 10 + y % 10 = y := by
    omega
  simp only [ed, em, ey]
  simp [h]

/-- C9: for every range whose present endpoints are valid, in-format dates,
formatting the range to text and parsing the text back yields the original
range: `textToRange (rangeToText r) = r`. -/
theorem text_range_round_trip (r : YmdRange) (h : rangeInFormat r = true) :
    textToRange (rangeToText r) = r := by
  obtain ⟨s, e⟩ := r
  simp only [rangeInFormat, Bool.and_eq_true] at h
  obtain ⟨hs, he⟩ := h
  have hnil : parseYmd [] = Option.none := rfl
  cases s <;> cases e <;>
    simp_all [textToRange, rangeToText, YmdRange.mk.injEq, hnil, parseYmd_formatYmd]

/-- Witness for C9: the range `{ start := 05/01/2020 }` survives the
format/parse round trip. -/
theorem text_range_round_trip_witness :
    rangeInFormat ⟨some ⟨2020, 1, 5⟩, Option.none⟩ = true ∧
    textToRange (rangeToText ⟨some ⟨2020, 1, 5⟩, Option.none⟩) =
      ⟨some ⟨2020, 1, 5⟩, Option.none⟩ := by
  refine ⟨by decide, text_range_round_trip _ (by decide)⟩

end DatePicker
